import Mathlib

/-!
Verification of the RTF (Reader Text File) data-ingestion and query core
(`src/RTF/rtf.py`) against its natural-language specification.

The Python program delegates storage and querying to SQLite (via `sqlite3`
and `pandas`).  The shallow embedding below models the store as a list of
tables whose cells are `Option String` (`none` is SQL `NULL`; non-text
values are represented by their SQLite text rendering, which is what the
`LIKE` operator compares anyway).  SQLite behaviours that the code relies
on are embedded explicitly and noted at each definition:

* identifier resolution is ASCII-case-insensitive (`sqlite3StrICmp`);
* the default `LIKE` operator folds ASCII `A`–`Z` and treats `%` and `_`
  as wildcards; `NULL LIKE p` is `NULL`, so such rows fail a `WHERE`;
* `LIMIT 500` keeps the first 500 rows surviving the `WHERE` filter.
-/

namespace RTF

/-- ASCII lower-casing as performed by SQLite's identifier comparison and
by the default `LIKE`: only `A`–`Z` are folded, all other characters
(including non-ASCII letters) are left unchanged. -/
def foldChar (c : Char) : Char :=
  if 'A' ≤ c ∧ c ≤ 'Z' then Char.ofNat (c.toNat + 32) else c

/-- Case-folded character list of a string. -/
def foldList (l : List Char) : List Char := l.map foldChar

/-- SQLite's ASCII-case-insensitive identifier equality (`sqlite3StrICmp`),
used when an interpolated table or column name is resolved against the
schema. -/
def eqCI (a b : String) : Bool := foldList a.data == foldList b.data

/-- SQLite `LIKE` pattern matching (default, `case_sensitive_like` off):
`%` matches any sequence, `_` any single character, other characters match
up to ASCII case folding.  `likeM p t` decides whether the whole text `t`
matches the whole pattern `p`. -/
def likeM : List Char → List Char → Bool
  | [], t => t.isEmpty
  | c :: ps, t =>
    if c = '%' then
      t.tails.any (fun s => likeM ps s)
    else
      match t with
      | [] => false
      | d :: ts => (c == '_' || foldChar c == foldChar d) && likeM ps ts

/-- The containment test the query performs: `DatabaseManager.search` binds
the parameter `f"%{value}%"` as the right-hand side of `LIKE`, so a cell
value `v` is kept iff it matches the pattern `'%' ++ value ++ '%'`. -/
def likeContains (value v : String) : Bool :=
  likeM ('%' :: (value.data ++ ['%'])) v.data

/-- A SQLite table: its name in `sqlite_master`, its column names in
schema order, and its rows in natural scan order.  A cell is `none` for
SQL `NULL` (pandas stores an empty CSV cell as `NaN`, which `to_sql`
writes as `NULL`). -/
structure Table where
  name : String
  columns : List String
  rows : List (List (Option String))
deriving DecidableEq

/-- The on-disk store `database.db`: the tables in `sqlite_master` order. -/
abbrev Store := List Table

/-- The uncaught `sqlite3.OperationalError` raised when an interpolated
identifier resolves to nothing.  This is a raw driver exception: the
program itself never classifies errors. -/
inductive SqlError where
  | noSuchTable (name : String)
  | noSuchColumn (name : String)
deriving DecidableEq

/-- `DatabaseManager.get_tables`: `SELECT name FROM sqlite_master WHERE
type='table'` returns the table names in master-table order. -/
def get_tables (db : Store) : List String := db.map (fun tb => tb.name)

/-- `DatabaseManager.get_columns`: `PRAGMA table_info({table})` resolves
the interpolated table name case-insensitively and returns its column
names in schema order; for an unknown table the pragma yields no rows, so
the method returns the empty list. -/
def get_columns (db : Store) (table : String) : List String :=
  match db.find? (fun tb => eqCI tb.name table) with
  | some tb => tb.columns
  | none => []

/-- The `WHERE {column} LIKE ?` test on one row once the column has been
resolved to index `i`: a row passes iff it has a non-`NULL` value there
that matches `%value%` (in SQLite, `NULL LIKE p` is `NULL`, which a
`WHERE` clause treats as false). -/
def rowMatches (i : Nat) (value : String) (row : List (Option String)) : Bool :=
  match row[i]? with
  | some (some v) => likeContains value v
  | _ => false

/-- `DatabaseManager.search`: the query string is built by f-string
interpolation, `SELECT * FROM {table} WHERE {column} LIKE ? LIMIT 500`,
with only the value bound as a parameter.  SQLite resolves the
interpolated names case-insensitively against the live schema; an
unresolvable name raises an `OperationalError` (modelled by `SqlError`),
otherwise the first 500 rows passing the `LIKE` filter are returned. -/
def search (db : Store) (table column value : String) :
    Except SqlError (List (List (Option String))) :=
  match db.find? (fun tb => eqCI tb.name table) with
  | none => .error (.noSuchTable table)
  | some tb =>
    match tb.columns.findIdx? (fun c => eqCI c column) with
    | none => .error (.noSuchColumn column)
    | some i => .ok ((tb.rows.filter (rowMatches i value)).take 500)

/-- `DatabaseManager.create_table_from_df`: `df.to_sql(table_name, conn,
if_exists="replace", index=False)` drops any existing table of exactly
that name and creates a fresh one from the frame, appended to
`sqlite_master`. -/
def create_table_from_df (db : Store) (name : String) (columns : List String)
    (rows : List (List (Option String))) : Store :=
  db.filter (fun tb => tb.name != name) ++ [⟨name, columns, rows⟩]

/-! ## Importer (`DataImporter.import_file` and its library calls) -/

/-- Splitting a character list at every occurrence of a delimiter
character; the list of fields is never empty.  This is the common core of
splitting a file into lines at `'\n'` and a line into fields at the
delimiter, as `pandas.read_csv` does for the simple quote-free inputs the
specification's claims range over. -/
def splitChars (delim : Char) : List Char → List (List Char)
  | [] => [[]]
  | c :: cs =>
    if c = delim then [] :: splitChars delim cs
    else
      match splitChars delim cs with
      | [] => [[c]]
      | h :: t => (c :: h) :: t

/-- String version of `splitChars`. -/
def splitStr (delim : Char) (s : String) : List String :=
  (splitChars delim s.data).map (fun l => String.mk l)

/-- `os.path.basename`: the part of the path after the last `/`. -/
def pyBasename (p : String) : String :=
  String.mk ((p.data.reverse.takeWhile (fun c => c != '/')).reverse)

/-- Index of the last occurrence of a character, if any. -/
def lastIdxOf (c : Char) (l : List Char) : Option Nat :=
  match l.reverse.findIdx? (fun d => d == c) with
  | none => none
  | some k => some (l.length - 1 - k)

/-- The root part of `os.path.splitext` applied to a plain base name
(CPython `genericpath._splitext` with no directory separator present):
split at the last dot, except that a name consisting only of leading dots
before that dot (a "hidden file" like `.csv`) keeps its extension. -/
def splitextRoot (b : String) : String :=
  match lastIdxOf '.' b.data with
  | none => b
  | some d =>
    if (b.data.take d).any (fun c => c != '.') then String.mk (b.data.take d)
    else b

/-- Python `str.replace` for a single-character pattern: every occurrence
of `a` is replaced by `b`. -/
def pyReplaceChar (s : String) (a b : Char) : String :=
  String.mk (s.data.map (fun c => if c = a then b else c))

/-- The table-name derivation inside `DataImporter.import_file`:
`os.path.splitext(os.path.basename(file_path))[0]` followed by
`.replace("-", "_").replace(" ", "_")`. -/
def derive_table_name (file_path : String) : String :=
  pyReplaceChar (pyReplaceChar (splitextRoot (pyBasename file_path)) '-' '_') ' ' '_'

/-- A pandas cell parsed from a delimited field: an empty field becomes
`NaN` (SQL `NULL` after `to_sql`), anything else is kept as text. -/
def cellOf (field : String) : Option String :=
  if field = "" then none else some field

/-- `pandas.read_csv` renames an empty header field at position `i` to
`"Unnamed: i"`. -/
def fillUnnamed (i : Nat) : List String → List String
  | [] => []
  | n :: rest =>
    (if n = "" then "Unnamed: " ++ Nat.repr i else n) :: fillUnnamed (i + 1) rest

/-- Find the first suffix `".k"` (k counting up from `k0`) making
`base ++ ".k"` distinct from every already-used name; the fuel is always
sufficient in use (more candidates than used names). -/
def freshDotName (base : String) (seen : List String) (k0 : Nat) : Nat → String
  | 0 => base ++ "." ++ Nat.repr k0
  | fuel + 1 =>
    let cand := base ++ "." ++ Nat.repr k0
    if seen.contains cand then freshDotName base seen (k0 + 1) fuel else cand

/-- `pandas.read_csv` de-duplicates repeated header names left to right:
a name equal to an earlier one is renamed `name.k` with the smallest `k ≥ 1`
avoiding the names already assigned. -/
def dedupeHeader (seen : List String) : List String → List String
  | [] => []
  | n :: rest =>
    let n2 := if seen.contains n then freshDotName n seen 1 (seen.length + 1) else n
    n2 :: dedupeHeader (n2 :: seen) rest

/-- The header names `pandas.read_csv` produces from the raw fields of the
first line: empty names filled in positionally, then duplicates mangled. -/
def mangleHeader (names : List String) : List String :=
  dedupeHeader [] (fillUnnamed 0 names)

/-- `pandas.read_csv` on raw file content with an explicit delimiter: the
first line is the header (names filled and de-duplicated), the remaining
non-blank lines are data rows (blank lines are skipped by default), empty
fields become `NaN`/`NULL`. -/
def read_csv (content : String) (delim : Char) :
    List String × List (List (Option String)) :=
  let lines := splitStr '\n' content
  let header := lines.headD ""
  let body := (lines.drop 1).filter (fun l => l != "")
  (mangleHeader (splitStr delim header),
   body.map (fun l => (splitStr delim l).map cellOf))

/-- The delimiter the importer ends up using for a given path: comma for
paths ending in `".csv"` (the default of `pd.read_csv`), semicolon for
every other accepted path (`delimiter=";"`).  Python `str.endswith` is
modelled by `List.isSuffixOf` on the characters. -/
def delimiterOf (file_path : String) : Char :=
  if ".csv".data.isSuffixOf file_path.data then ',' else ';'

/-- `DataImporter.import_file` after the file dialog returned a non-empty
`file_path`; `content` is the text `pd.read_csv` reads from that path.
Returns the updated store and the returned table name. -/
def import_file (db : Store) (file_path content : String) : Store × String :=
  let parsed :=
    if ".csv".data.isSuffixOf file_path.data then read_csv content ','
    else read_csv content ';'
  let table_name := derive_table_name file_path
  (create_table_from_df db table_name parsed.1 parsed.2, table_name)

/-! ## UI-held result and export (`AppUI.export_data`) -/

/-- The pandas `DataFrame` held in `AppUI.last_df`: column labels plus
rows. -/
structure DataFrame where
  columns : List String
  rows : List (List (Option String))
deriving DecidableEq

/-- `pandas.DataFrame.empty`: true iff either axis has length zero (the
initial `pd.DataFrame()` and any zero-row search result are empty). -/
def DataFrame.isEmptyDF (df : DataFrame) : Bool :=
  df.rows.isEmpty || df.columns.isEmpty

/-- Outcome of one `AppUI.export_data` call: the empty-data warning
branch, the user cancelling the save dialog, or a completed write. -/
inductive ExportOutcome where
  | emptyResult
  | cancelled
  | written (path : String)
deriving DecidableEq

/-- `AppUI.export_data`: if `last_df.empty` the method shows the "Nenhum
dado para exportar" warning and returns (outcome `emptyResult`); otherwise
it asks for a path and, when one is chosen, writes `last_df` there with
`to_excel`.  The second component lists every file written to disk. -/
def export_data (last_df : DataFrame) (chosen : Option String) :
    ExportOutcome × List (String × DataFrame) :=
  if last_df.isEmptyDF then (.emptyResult, [])
  else
    match chosen with
    | none => (.cancelled, [])
    | some p => (.written p, [(p, last_df)])

/-! ## Properties of the `LIKE` matcher -/

/-- Unfolding `likeM` at a leading `%`. -/
lemma likeM_percent_cons (ps : List Char) (t : List Char) :
    likeM ('%' :: ps) t = t.tails.any (fun s => likeM ps s) := by
  simp [likeM]

/-- Unfolding `likeM` at a leading non-`%` character against `[]`. -/
lemma likeM_cons_nil {c : Char} (ps : List Char) (hc : c ≠ '%') :
    likeM (c :: ps) [] = false := by
  simp [likeM, hc]

/-- Unfolding `likeM` at a leading non-`%` character against a cons. -/
lemma likeM_cons_cons {c : Char} (ps : List Char) (d : Char) (ts : List Char)
    (hc : c ≠ '%') :
    likeM (c :: ps) (d :: ts) =
      ((c == '_' || foldChar c == foldChar d) && likeM ps ts) := by
  simp [likeM, hc]

/-- The pattern `%` alone matches every text. -/
lemma likeM_percent_nil (t : List Char) : likeM ['%'] t = true := by
  rw [likeM_percent_cons]
  exact List.any_eq_true.2 ⟨[], (List.mem_tails _ _).2 List.nil_suffix, rfl⟩

/-- A wildcard-free pattern followed by `%` matches a text iff the folded
pattern is a prefix of the folded text. -/
lemma likeM_append_percent (p : List Char) (hp : ∀ c ∈ p, c ≠ '%' ∧ c ≠ '_') :
    ∀ t, (likeM (p ++ ['%']) t = true ↔ foldList p <+: foldList t) := by
  induction p with
  | nil =>
    intro t
    simp [likeM_percent_nil t, foldList]
  | cons c ps ih =>
    have hc := hp c (List.mem_cons_self c ps)
    have hps : ∀ x ∈ ps, x ≠ '%' ∧ x ≠ '_' :=
      fun x hx => hp x (List.mem_cons_of_mem c hx)
    intro t
    cases t with
    | nil =>
      rw [List.cons_append, likeM_cons_nil (ps ++ ['%']) hc.1]
      simp [foldList]
    | cons d ts =>
      rw [List.cons_append, likeM_cons_cons (ps ++ ['%']) d ts hc.1]
      have hcu : (c == '_') = false := by simp [hc.2]
      simp only [hcu, Bool.false_or, Bool.and_eq_true, beq_iff_eq, foldList,
        List.map_cons, List.cons_prefix_cons]
      exact and_congr Iff.rfl (ih hps ts)

/-- For a wildcard-free `p`, the bound pattern `%p%` matches a text iff
the folded `p` occurs inside the folded text (the case-per-collation
unanchored substring test of the specification). -/
lemma likeM_contains_iff (p : List Char) (hp : ∀ c ∈ p, c ≠ '%' ∧ c ≠ '_')
    (t : List Char) :
    (likeM ('%' :: (p ++ ['%'])) t = true ↔ foldList p <:+: foldList t) := by
  rw [likeM_percent_cons, List.any_eq_true]
  constructor
  · rintro ⟨s, hmem, hs⟩
    have hsuf : s <:+ t := (List.mem_tails _ _).1 hmem
    have hpre : foldList p <+: foldList s := (likeM_append_percent p hp s).1 hs
    exact List.infix_iff_prefix_suffix.2 ⟨foldList s, hpre, hsuf.map foldChar⟩
  · intro hinf
    rcases List.infix_iff_prefix_suffix.1 hinf with ⟨u, hpre, hsuf⟩
    rcases List.isSuffix_map_iff.1 hsuf with ⟨s, hs_suf, rfl⟩
    exact ⟨s, (List.mem_tails _ _).2 hs_suf, (likeM_append_percent p hp s).2 hpre⟩

/-- The empty search string produces the pattern `%%`, which matches every
non-`NULL` value. -/
lemma likeContains_empty (v : String) : likeContains "" v = true :=
  (likeM_contains_iff [] (by simp) v.data).2 List.nil_infix

/-- Evaluating `search` once the table and the column have been
resolved. -/
lemma search_eq (db : Store) (T C : String) (tb : Table) (i : Nat)
    (htb : db.find? (fun x => eqCI x.name T) = some tb)
    (hi : tb.columns.findIdx? (fun c => eqCI c C) = some i) (value : String) :
    search db T C value = .ok ((tb.rows.filter (rowMatches i value)).take 500) := by
  simp only [search, htb, hi]

/-- A row with a non-`NULL` value at the resolved column. -/
def rowNonNull (i : Nat) (row : List (Option String)) : Bool :=
  match row[i]? with
  | some (some _) => true
  | _ => false

/-! ## Claim theorems about `search` -/

/-- C3: for every store, table, column and pattern, a `ResultSet`
successfully returned by `search` contains at most 500 rows, whatever the
size of the underlying table (`LIMIT 500`). -/
theorem search_result_le_500 (db : Store) (T C value : String)
    (rs : List (List (Option String))) (h : search db T C value = .ok rs) :
    rs.length ≤ 500 := by
  cases htb : db.find? (fun x => eqCI x.name T) with
  | none => simp [search, htb] at h
  | some tb =>
    cases hi : tb.columns.findIdx? (fun c => eqCI c C) with
    | none => simp [search, htb, hi] at h
    | some i =>
      have h2 := (search_eq db T C tb i htb hi value).symm.trans h
      have h3 : (tb.rows.filter (rowMatches i value)).take 500 = rs := by
        injection h2
      rw [← h3]
      exact List.length_take_le 500 _

/-- Witness for C3 at a concrete store and query. -/
theorem search_result_le_500_witness :
    ([[some "x"]] : List (List (Option String))).length ≤ 500 :=
  search_result_le_500 [⟨"t", ["c"], [[some "x"], [none]]⟩] "t" "c" ""
    [[some "x"]] rfl

/-- C2 (as stated) is false: the pattern is not matched as a literal
substring.  The unescaped `_` of `LIKE` matches any single character, so
`search` on pattern `"_"` returns the row whose value is `"xy"`, which
does not contain `"_"`. -/
theorem search_literal_substring_counterexample :
    search [⟨"t", ["c"], [[some "xy"]]⟩] "t" "c" "_" = .ok [[some "xy"]] ∧
    ¬ ("_".data <:+: "xy".data) :=
  ⟨rfl, by decide⟩

/-- C2 (amended): for a pattern `pat` containing neither `%` nor `_`,
every row returned by `search` has, at the searched column, a non-`NULL`
value containing `pat` as an unanchored substring up to ASCII case
folding; and conversely no row with such a value is omitted unless the
500-row cap truncated the set. -/
theorem search_substring_wildcard_free (db : Store) (T C pat : String)
    (tb : Table) (i : Nat)
    (hw : ∀ c ∈ pat.data, c ≠ '%' ∧ c ≠ '_')
    (htb : db.find? (fun x => eqCI x.name T) = some tb)
    (hi : tb.columns.findIdx? (fun c => eqCI c C) = some i)
    (rs : List (List (Option String)))
    (h : search db T C pat = .ok rs) :
    (∀ row ∈ rs, ∃ v, row[i]? = some (some v) ∧
        foldList pat.data <:+: foldList v.data) ∧
    ((tb.rows.filter (rowMatches i pat)).length ≤ 500 →
      ∀ row ∈ tb.rows, ∀ v, row[i]? = some (some v) →
        foldList pat.data <:+: foldList v.data → row ∈ rs) := by
  have h2 := (search_eq db T C tb i htb hi pat).symm.trans h
  have hrs : (tb.rows.filter (rowMatches i pat)).take 500 = rs := by
    injection h2
  constructor
  · intro row hrow
    rw [← hrs] at hrow
    have h1 : row ∈ tb.rows.filter (rowMatches i pat) :=
      List.take_subset _ _ hrow
    have hm := (List.mem_filter.1 h1).2
    cases e : row[i]? with
    | none => simp [rowMatches, e] at hm
    | some o =>
      cases o with
      | none => simp [rowMatches, e] at hm
      | some v =>
        have hlv : likeContains pat v = true := by
          simpa [rowMatches, e] using hm
        exact ⟨v, rfl, (likeM_contains_iff pat.data hw v.data).1 hlv⟩
  · intro hlen row hrowmem v hv hinf
    have hm : rowMatches i pat row = true := by
      simp only [rowMatches, hv]
      exact (likeM_contains_iff pat.data hw v.data).2 hinf
    have hfil : row ∈ tb.rows.filter (rowMatches i pat) :=
      List.mem_filter.2 ⟨hrowmem, hm⟩
    rw [← hrs, List.take_of_length_le hlen]
    exact hfil

/-- Witness for the amended C2: searching `"al"` in a table holding
`"Alice"` returns that row, and the theorem recovers the case-folded
substring occurrence. -/
theorem search_substring_wildcard_free_witness :
    ∃ v, ([some "Alice"] : List (Option String))[0]? = some (some v) ∧
      foldList "al".data <:+: foldList v.data :=
  (search_substring_wildcard_free [⟨"t", ["c"], [[some "Alice"]]⟩] "t" "c" "al"
      ⟨"t", ["c"], [[some "Alice"]]⟩ 0 (by decide) rfl rfl
      [[some "Alice"]] rfl).1 [some "Alice"] (List.mem_singleton.2 rfl)

/-- C4 (as stated) is false: with the empty pattern the query still
excludes `NULL` cells (`NULL LIKE '%%'` is not true), so a one-row table
whose cell is `NULL` yields 0 rows, not `min(row_count, 500) = 1`. -/
theorem search_empty_pattern_counterexample :
    search [⟨"t", ["c"], [[none]]⟩] "t" "c" "" = .ok [] ∧
    (0 : Nat) ≠ min (Table.mk "t" ["c"] [[none]]).rows.length 500 :=
  ⟨rfl, by decide⟩

/-- C4 (amended): `search(table, column, "")` returns exactly
`min(n, 500)` rows where `n` counts the rows whose value at the searched
column is non-`NULL`. -/
theorem search_empty_pattern_count (db : Store) (T C : String)
    (tb : Table) (i : Nat)
    (htb : db.find? (fun x => eqCI x.name T) = some tb)
    (hi : tb.columns.findIdx? (fun c => eqCI c C) = some i)
    (rs : List (List (Option String)))
    (h : search db T C "" = .ok rs) :
    rs.length = min (tb.rows.filter (rowNonNull i)).length 500 := by
  have h2 := (search_eq db T C tb i htb hi "").symm.trans h
  have hrs : (tb.rows.filter (rowMatches i "")).take 500 = rs := by
    injection h2
  have hfe : tb.rows.filter (rowMatches i "") = tb.rows.filter (rowNonNull i) := by
    apply List.filter_congr
    intro row _
    cases e : row[i]? with
    | none => simp [rowMatches, rowNonNull, e]
    | some o =>
      cases o with
      | none => simp [rowMatches, rowNonNull, e]
      | some v => simp [rowMatches, rowNonNull, e, likeContains_empty]
  rw [← hrs, hfe, List.length_take]
  exact Nat.min_comm 500 _

/-- Witness for the amended C4 at a concrete two-row table with one
`NULL` cell. -/
theorem search_empty_pattern_count_witness :
    ([[some "x"]] : List (List (Option String))).length =
      min ((Table.mk "t" ["c"] [[some "x"], [none]]).rows.filter (rowNonNull 0)).length 500 :=
  search_empty_pattern_count [⟨"t", ["c"], [[some "x"], [none]]⟩] "t" "c"
    ⟨"t", ["c"], [[some "x"], [none]]⟩ 0 rfl rfl [[some "x"]] rfl

/-- C10: a row whose value at the searched column is SQL `NULL` is never
part of a successfully returned `ResultSet`, for any pattern including the
empty one: every returned row carries a non-`NULL` value there. -/
theorem search_null_excluded (db : Store) (T C value : String)
    (tb : Table) (i : Nat)
    (htb : db.find? (fun x => eqCI x.name T) = some tb)
    (hi : tb.columns.findIdx? (fun c => eqCI c C) = some i)
    (rs : List (List (Option String)))
    (h : search db T C value = .ok rs) :
    ∀ row ∈ rs, ∃ v, row[i]? = some (some v) := by
  have h2 := (search_eq db T C tb i htb hi value).symm.trans h
  have hrs : (tb.rows.filter (rowMatches i value)).take 500 = rs := by
    injection h2
  intro row hrow
  rw [← hrs] at hrow
  have h1 : row ∈ tb.rows.filter (rowMatches i value) :=
    List.take_subset _ _ hrow
  have hm := (List.mem_filter.1 h1).2
  cases e : row[i]? with
  | none => simp [rowMatches, e] at hm
  | some o =>
    cases o with
    | none => simp [rowMatches, e] at hm
    | some v => exact ⟨v, rfl⟩

/-- Witness for C10: in a table with one `NULL` row and one non-`NULL`
row, the returned row's value is non-`NULL`. -/
theorem search_null_excluded_witness :
    ∃ v, ([some "x"] : List (Option String))[0]? = some (some v) :=
  search_null_excluded [⟨"t", ["c"], [[some "x"], [none]]⟩] "t" "c" ""
    ⟨"t", ["c"], [[some "x"], [none]]⟩ 0 rfl rfl [[some "x"]] rfl
    [some "x"] (List.mem_singleton.2 rfl)

/-! ## Claim theorems about the importer, the sanitizer and the exporter -/

/-- The safe identifier set named by the specification: letters, digits
and underscore.  (Stated from the specification's words, for comparison
with what `derive_table_name` actually produces.) -/
def isSafeChar (c : Char) : Bool := c.isAlpha || c.isDigit || c == '_'

/-- C5 (as stated) is false: `derive_table_name` replaces only hyphens and
spaces, so the `+` of `"a+b.csv"` survives into the derived name, which
therefore contains a character outside the safe identifier set instead of
an underscore. -/
theorem derive_table_name_counterexample :
    derive_table_name "a+b.csv" = "a+b" ∧
    ((derive_table_name "a+b.csv").data.all isSafeChar) = false := by
  exact ⟨by decide, by decide⟩

/-- C5 (amended): `derive_table_name` strips the directory and the
extension and replaces exactly the hyphens and spaces by underscores;
every other character, safe or not, is preserved.  The specification's
concrete scenario holds. -/
theorem derive_table_name_amended (p : String) :
    derive_table_name "sales report-2024.csv" = "sales_report_2024" ∧
    (∀ c ∈ (derive_table_name p).data, c ≠ ' ' ∧ c ≠ '-') ∧
    (derive_table_name p).data =
      (splitextRoot (pyBasename p)).data.map
        (fun c => if c = ' ' ∨ c = '-' then '_' else c) := by
  have hdata : (derive_table_name p).data =
      ((splitextRoot (pyBasename p)).data.map
        (fun c => if c = '-' then '_' else c)).map
        (fun c => if c = ' ' then '_' else c) := rfl
  refine ⟨by decide, ?_, ?_⟩
  · intro c hc
    rw [hdata, List.map_map] at hc
    obtain ⟨x, hx, rfl⟩ := List.mem_map.1 hc
    by_cases h1 : x = '-' <;> by_cases h2 : x = ' ' <;>
      simp [Function.comp, h1, h2]
  · rw [hdata, List.map_map]
    apply List.map_congr_left
    intro x hx
    by_cases h1 : x = '-' <;> by_cases h2 : x = ' ' <;>
      simp [Function.comp, h1, h2]

/-- Replacing a table twice under the same name is the same as replacing
it once: the first replacement's table is dropped by the second. -/
lemma create_create (db : Store) (n : String) (c1 : List String)
    (r1 : List (List (Option String))) (c2 : List String)
    (r2 : List (List (Option String))) :
    create_table_from_df (create_table_from_df db n c1 r1) n c2 r2 =
      create_table_from_df db n c2 r2 := by
  unfold create_table_from_df
  rw [List.filter_append, List.filter_filter]
  simp

/-- After a replace, the store holds exactly one table of the given name,
carrying exactly the data just written. -/
lemma create_filter_name (db : Store) (n : String) (cols : List String)
    (rows : List (List (Option String))) :
    (create_table_from_df db n cols rows).filter (fun tb => tb.name == n) =
      [⟨n, cols, rows⟩] := by
  unfold create_table_from_df
  rw [List.filter_append, List.filter_filter]
  simp [bne]

/-- `import_file`, rewritten through the delimiter policy: the parse
delimiter is a function of the path alone (no content sniffing). -/
lemma import_file_eq (db : Store) (p content : String) :
    import_file db p content =
      (create_table_from_df db (derive_table_name p)
        (read_csv content (delimiterOf p)).1 (read_csv content (delimiterOf p)).2,
       derive_table_name p) := by
  by_cases h : ".csv".data.isSuffixOf p.data = true <;>
    simp [import_file, delimiterOf, h]

/-- C6: importing the same source path twice leaves the store exactly as a
single import of the second content would, and the store then holds
exactly one table under the derived name, carrying exactly the rows and
columns parsed from the second load — no row duplication, no column
merge. -/
theorem import_twice_replaces (db : Store) (p c1 c2 : String) :
    (import_file (import_file db p c1).1 p c2).1 = (import_file db p c2).1 ∧
    (import_file (import_file db p c1).1 p c2).2 = (import_file db p c2).2 ∧
    ((import_file (import_file db p c1).1 p c2).1).filter
        (fun tb => tb.name == derive_table_name p) =
      [⟨derive_table_name p, (read_csv c2 (delimiterOf p)).1,
        (read_csv c2 (delimiterOf p)).2⟩] := by
  simp only [import_file_eq]
  refine ⟨?_, ?_, ?_⟩
  · exact create_create db (derive_table_name p) _ _ _ _
  · trivial
  · rw [create_create]
    exact create_filter_name db (derive_table_name p) _ _

/-- C9: the importer parses with the comma delimiter exactly when the path
ends in `".csv"`, and with the semicolon delimiter for every other path;
the delimiter is computed from the path alone, never from the content. -/
theorem import_delimiter_policy (db : Store) (p content : String) :
    import_file db p content =
      (create_table_from_df db (derive_table_name p)
        (read_csv content (delimiterOf p)).1 (read_csv content (delimiterOf p)).2,
       derive_table_name p) ∧
    (delimiterOf p = ',' ↔ ".csv".data.isSuffixOf p.data = true) ∧
    (delimiterOf p = ';' ↔ ".csv".data.isSuffixOf p.data = false) := by
  refine ⟨import_file_eq db p content, ?_, ?_⟩ <;>
    by_cases h : ".csv".data.isSuffixOf p.data = true <;>
      simp [delimiterOf, h]

/-- C7: when the held `last_df` is empty, `export_data` takes the
empty-data warning branch and writes no file at all — it neither silently
succeeds nor writes an empty sheet. -/
theorem export_empty_no_write (last_df : DataFrame) (chosen : Option String)
    (h : last_df.isEmptyDF = true) :
    export_data last_df chosen = (.emptyResult, []) := by
  simp [export_data, h]

/-- Witness for C7 at the initial empty `DataFrame`. -/
theorem export_empty_no_write_witness :
    export_data ⟨[], []⟩ none = (.emptyResult, []) :=
  export_empty_no_write ⟨[], []⟩ none rfl

/-- C1 fails on the code: `search` interpolates the column name into
identifier position, and SQLite resolves identifiers case-insensitively,
so the column string `"NAME"` — not in `get_columns`, which is `["Name"]`
— does not fail at all: the query succeeds and returns rows. -/
theorem search_unknown_column_not_rejected :
    ((get_columns [⟨"t", ["Name"], [[some "x"]]⟩] "t").contains "NAME") = false ∧
    search [⟨"t", ["Name"], [[some "x"]]⟩] "t" "NAME" "" = .ok [[some "x"]] :=
  ⟨by decide, rfl⟩

/-! ## Header round-trip (load then list columns) -/

/-- Filling unnamed header fields changes nothing when no field is
empty. -/
lemma fillUnnamed_id (i : Nat) (l : List String) (h : ∀ n ∈ l, n ≠ "") :
    fillUnnamed i l = l := by
  induction l generalizing i with
  | nil => rfl
  | cons n rest ih =>
    have hn : n ≠ "" := h n (List.mem_cons_self n rest)
    simp [fillUnnamed, hn,
      ih (i + 1) (fun x hx => h x (List.mem_cons_of_mem n hx))]

/-- `List.contains` is false for a non-member (strings). -/
lemma contains_eq_false_of_not_mem {l : List String} {a : String}
    (h : a ∉ l) : l.contains a = false := by
  induction l with
  | nil => rfl
  | cons b bs ih =>
    have hab : a ≠ b := fun he => h (he ▸ List.mem_cons_self b bs)
    have hnb : a ∉ bs := fun hm => h (List.mem_cons_of_mem b hm)
    rw [List.contains_cons, ih hnb]
    simp [hab]

/-- De-duplication changes nothing when the names are pairwise distinct
and none was seen before. -/
lemma dedupeHeader_id (seen : List String) (l : List String)
    (hnd : l.Nodup) (hdisj : ∀ x ∈ l, x ∉ seen) :
    dedupeHeader seen l = l := by
  induction l generalizing seen with
  | nil => rfl
  | cons n rest ih =>
    have hmem : n ∉ seen := hdisj n (List.mem_cons_self n rest)
    have hn : seen.contains n = false := contains_eq_false_of_not_mem hmem
    have hnd2 := List.nodup_cons.1 hnd
    have hdisj2 : ∀ x ∈ rest, x ∉ n :: seen := by
      intro x hx hmem2
      rcases List.mem_cons.1 hmem2 with he | hs
      · exact hnd2.1 (he ▸ hx)
      · exact hdisj x (List.mem_cons_of_mem n hx) hs
    simp [dedupeHeader, hn, hmem, ih (n :: seen) hnd2.2 hdisj2]

/-- pandas keeps a header of pairwise-distinct, non-empty names exactly
as written. -/
lemma mangleHeader_id (l : List String) (hne : ∀ n ∈ l, n ≠ "")
    (hnd : l.Nodup) : mangleHeader l = l := by
  unfold mangleHeader
  rw [fillUnnamed_id 0 l hne]
  exact dedupeHeader_id [] l hnd (by simp)

/-- Case-insensitive identifier equality is reflexive. -/
lemma eqCI_refl (s : String) : eqCI s s = true := by simp [eqCI]

/-- After a replace, looking the table up again (case-insensitively, as
`PRAGMA table_info` does) finds exactly the columns just written, provided
no other table's name collides case-insensitively with the new name (the
real system could not even have created the table then: `CREATE TABLE`
treats such names as duplicates). -/
lemma get_columns_create (db : Store) (n : String) (cols : List String)
    (rows : List (List (Option String)))
    (hdb : ∀ tb ∈ db, tb.name ≠ n → eqCI tb.name n = false) :
    get_columns (create_table_from_df db n cols rows) n = cols := by
  have hfront : (db.filter (fun tb => tb.name != n)).find?
      (fun tb => eqCI tb.name n) = none := by
    rw [List.find?_eq_none]
    intro x hx
    have hmem := List.mem_filter.1 hx
    have hne : x.name ≠ n := by simpa using hmem.2
    simp [hdb x hmem.1 hne]
  simp only [get_columns, create_table_from_df]
  rw [List.find?_append, hfront, Option.none_or]
  simp [List.find?_cons, eqCI_refl]

/-- C8 (as stated) is false: pandas renames duplicated header fields, so
loading a file with header `a,a` yields columns `["a", "a.1"]`, not the
header row as written. -/
theorem load_columns_header_counterexample :
    get_columns (import_file [] "d.csv" "a,a\n1,2").1
        (import_file [] "d.csv" "a,a\n1,2").2 = ["a", "a.1"] ∧
    (["a", "a.1"] : List String) ≠ ["a", "a"] :=
  ⟨by decide, by decide⟩

/-- C8 (amended): for a delimited input whose header fields are pairwise
distinct and non-empty, loading it and then listing the columns of the
derived table returns exactly the header fields in their original order
(assuming no unrelated table's name collides case-insensitively with the
derived name, in which case the real import could not have succeeded). -/
theorem load_columns_header (db : Store) (path content : String)
    (fields : List String)
    (hf : splitStr (delimiterOf path) ((splitStr '\n' content).headD "") = fields)
    (hne : ∀ f ∈ fields, f ≠ "")
    (hnd : fields.Nodup)
    (hdb : ∀ tb ∈ db, tb.name ≠ derive_table_name path →
      eqCI tb.name (derive_table_name path) = false) :
    get_columns (import_file db path content).1 (import_file db path content).2 =
      fields := by
  have hcols : (read_csv content (delimiterOf path)).1 = fields := by
    simp only [read_csv]
    rw [hf]
    exact mangleHeader_id fields hne hnd
  simp only [import_file_eq]
  rw [hcols]
  exact get_columns_create db (derive_table_name path) fields _ hdb

/-- Witness for the amended C8 on the specification's concrete header. -/
theorem load_columns_header_witness :
    get_columns (import_file [] "data.csv" "id,name\n1,Alice").1
        (import_file [] "data.csv" "id,name\n1,Alice").2 = ["id", "name"] :=
  load_columns_header [] "data.csv" "id,name\n1,Alice" ["id", "name"]
    (by decide) (by decide) (by decide)
    (by intro tb htb hne; exact absurd htb (List.not_mem_nil tb))

end RTF
